import Mathlib

/-!
Verification of the CRM backend's scoped query / aggregation engine.

This file is a shallow embedding of the decision logic of the backend:

* `backend/app/routers/leads.py` — scoping, filters, pagination, soft delete
* `backend/app/routers/activities.py` — per-lead activity access and validation
* `backend/app/routers/dashboard.py` — the aggregation engine
* `backend/app/main.py` (`_bootstrap_admin_once`) — the startup coordinator

Conventions of the embedding:

* SQLAlchemy rows become Lean structures; the database session becomes an
  explicit `DB` value holding the three tables as lists.
* `datetime` values become `Int` seconds since the epoch; `date()` truncation
  is floor division by 86400 (UTC calendar days), which matches Python's
  floor semantics also for instants before the epoch.
* `HTTPException(status_code, detail)` becomes the `HTTPException` structure;
  a route handler that can raise returns `Except HTTPException α`.
* Python string helpers used by the code (`str.strip`, `str.isdigit`,
  `int(s)`, `str.lower`, substring match) are implemented over `List Char`
  by structural recursion so that every definition evaluates; `str.isdigit`
  is modelled for ASCII digits, the only inputs the budget filters care
  about.
* SQL `ORDER BY` is an insertion sort on the same key; ties are not broken
  deterministically by the store, so any stable order is a faithful model.
* SQL group-by count dictionaries are modelled by their lookup function
  (`key ↦ count of rows in that group`, absent key ↦ 0), which is exactly
  what the Python code reads off them.
-/

namespace CRM

/-! ## Python string primitives (`str.strip`, `str.isdigit`, `int`, `lower`) -/

/-- ASCII whitespace as stripped by `str.strip()` (the characters that occur
in query parameters). -/
def isSpaceC (c : Char) : Bool :=
  c == ' ' || c == '\t' || c == '\n' || c == '\r'

/-- Drop leading whitespace characters. -/
def dropLeading : List Char → List Char
  | [] => []
  | c :: cs => if isSpaceC c then dropLeading cs else c :: cs

/-- `str.strip()` on a character list: drop whitespace at both ends. -/
def stripL (l : List Char) : List Char :=
  dropLeading ((dropLeading l.reverse).reverse)

/-- `str.strip()` on a string. -/
def stripS (s : String) : String := ⟨stripL s.data⟩

/-- A decimal digit, as tested by `str.isdigit()` on ASCII input. -/
def isDigitC (c : Char) : Bool := '0' ≤ c && c ≤ '9'

/-- All characters are decimal digits. -/
def digitsOnly : List Char → Bool
  | [] => true
  | c :: cs => isDigitC c && digitsOnly cs

/-- `str.isdigit()`: non-empty and all digits. -/
def isdigitL (l : List Char) : Bool := !l.isEmpty && digitsOnly l

/-- Value of the decimal numeral `l` (what `int(s)` returns on a digit
string), accumulator style. -/
def parseNatL : List Char → Nat → Nat
  | [], acc => acc
  | c :: cs, acc => parseNatL cs (acc * 10 + (c.toNat - '0'.toNat))

/-- Case-insensitive character equality (`ILIKE` compares lowercased). -/
def eqCI (a b : Char) : Bool := a.toLower == b.toLower

/-- Does `h` start with `p`, case-insensitively? -/
def startsWithCI : List Char → List Char → Bool
  | [], _ => true
  | _ :: _, [] => false
  | a :: as, b :: bs => eqCI a b && startsWithCI as bs

/-- Does `h` contain `p` as a contiguous run, case-insensitively?  This is
SQL `h ILIKE '%p%'`. -/
def containsCI (p : List Char) : List Char → Bool
  | [] => p.isEmpty
  | c :: t => startsWithCI p (c :: t) || containsCI p t

/-- `column ILIKE '%pat%'` for a non-nullable text column. -/
def ilike (hay pat : String) : Bool := containsCI pat.data hay.data

/-- `column ILIKE '%pat%'` for a nullable text column: SQL `NULL ILIKE x`
is not true. -/
def ilikeOpt (hay : Option String) (pat : String) : Bool :=
  match hay with
  | none => false
  | some h => ilike h pat

/-! ## Sorting (SQL `ORDER BY`) -/

/-- Insert `a` into `l`, placing it before the first element `b` for which
`before a b` holds. -/
def insort {α : Type} (before : α → α → Bool) (a : α) : List α → List α
  | [] => [a]
  | b :: bs => if before a b then a :: b :: bs else b :: insort before a bs

/-- Insertion sort with the strict "comes before" test `before`.  Models the
store's `ORDER BY`; the spec leaves tie order unspecified. -/
def sortBy {α : Type} (before : α → α → Bool) : List α → List α
  | [] => []
  | x :: xs => insort before x (sortBy before xs)

/-! ## Data model (`backend/app/models.py`) -/

/-- `models.User` (the columns the core logic reads). -/
structure User where
  id : Nat
  email : String
  first_name : Option String
  last_name : Option String
  is_admin : Bool
deriving Repr, DecidableEq

/-- `models.Lead` (the columns the core logic reads). -/
structure Lead where
  id : Nat
  first_name : String
  last_name : String
  email : Option String
  status : String
  source : Option String
  budget_min : Option Int
  budget_max : Option Int
  is_active : Bool
  user_id : Nat
  created_at : Int
  updated_at : Int
deriving Repr, DecidableEq

/-- `models.Activity` (the columns the core logic reads). -/
structure Activity where
  id : Nat
  lead_id : Nat
  user_id : Option Nat
  activity_type : String
  title : Option String
  notes : Option String
  duration : Option Int
  activity_date : Int
  created_at : Int
deriving Repr, DecidableEq

/-- The shared relational store: the three tables. -/
structure DB where
  users : List User
  leads : List Lead
  activities : List Activity
deriving Repr

/-- `fastapi.HTTPException`. -/
structure HTTPException where
  status_code : Nat
  detail : String
deriving Repr, DecidableEq

/-- Status code of an error outcome, `none` on success. -/
def errStatus {α : Type} : Except HTTPException α → Option Nat
  | .error e => some e.status_code
  | .ok _ => none

/-! ## Lead Store Accessor (`backend/app/routers/leads.py`) -/

/-- `_to_int` (leads.py:17): convert a string query parameter to an integer;
`None` for blanks and non-digit input. -/
def to_int (v : Option String) : Option Nat :=
  match v with
  | none => none
  | some v =>
    let s := stripL v.data
    if isdigitL s then some (parseNatL s 0) else none

/-- `_scoped_query` (leads.py:25): all active leads; restricted to the
caller's own rows unless the caller is an admin. -/
def scoped_query (db : DB) (user : User) : List Lead :=
  let q := db.leads.filter (fun l => l.is_active)
  if user.is_admin then q else q.filter (fun l => l.user_id == user.id)

/-- `_display_name` (leads.py:36): best-effort full name, falling back to
the email. -/
def display_name (u : User) : String :=
  let first := stripS (u.first_name.getD "")
  let last := stripS (u.last_name.getD "")
  let full := stripS (first ++ " " ++ last)
  if full.data.isEmpty then u.email else full

/-- A lead as returned by the routes: the row plus the attached
`owner_name` (leads.py:44, `_add_owner_name`). -/
structure LeadOut where
  lead : Lead
  owner_name : Option String
deriving Repr, DecidableEq

/-- `_add_owner_name` (leads.py:44): attach the owner's display name; the
`owner` relationship resolves `lead.user_id` in the users table. -/
def add_owner_name (db : DB) (l : Lead) : LeadOut :=
  match db.users.find? (fun u => u.id == l.user_id) with
  | some o => ⟨l, some (display_name o)⟩
  | none => ⟨l, none⟩

/-- The filter parameters of `list_leads` / `export_leads_csv`. -/
structure LeadFilters where
  q : Option String
  status_filter : Option String
  source : Option String
  min_budget : Option String
  max_budget : Option String
deriving Repr

/-- No filters. -/
def noFilters : LeadFilters := ⟨none, none, none, none, none⟩

/-- `_filter_leads_query`, the `if q:` stage (leads.py:65): substring
case-insensitive match over first/last name or email.  Python truthiness
of a string parameter is `≠ None` and non-empty. -/
def apply_q_filter (query : List Lead) (q : Option String) : List Lead :=
  match q with
  | none => query
  | some qs =>
    if qs.data.isEmpty then query
    else query.filter (fun l =>
      ilike l.first_name qs || ilike l.last_name qs || ilikeOpt l.email qs)

/-- `_filter_leads_query`, the `if status_filter:` stage (leads.py:73). -/
def apply_status_filter (query : List Lead) (st : Option String) : List Lead :=
  match st with
  | none => query
  | some st =>
    if st.data.isEmpty then query
    else query.filter (fun l => l.status == st)

/-- `_filter_leads_query`, the `if source:` stage (leads.py:76). -/
def apply_source_filter (query : List Lead) (so : Option String) : List Lead :=
  match so with
  | none => query
  | some so =>
    if so.data.isEmpty then query
    else query.filter (fun l => l.source == some so)

/-- The budget-validation test (leads.py:81, leads.py:84): the raw value
was supplied, failed `_to_int`, and is not blank. -/
def budget_filter_error (v : Option String) : Bool :=
  match v with
  | some s => (to_int v).isNone && !(stripL s.data).isEmpty
  | none => false

/-- The `budget_min >= mb` stage (leads.py:88-89): rows with a non-null
`budget_min` at least the bound. -/
def apply_min_filter (query : List Lead) (mb : Option Nat) : List Lead :=
  match mb with
  | none => query
  | some m => query.filter (fun l =>
      match l.budget_min with
      | none => false
      | some b => decide ((m : Int) ≤ b))

/-- The `budget_max <= xb` stage (leads.py:90-91). -/
def apply_max_filter (query : List Lead) (xb : Option Nat) : List Lead :=
  match xb with
  | none => query
  | some m => query.filter (fun l =>
      match l.budget_max with
      | none => false
      | some b => decide (b ≤ (m : Int)))

/-- `_filter_leads_query` (leads.py:53): apply search and filter stages in
source order; 400 for a non-blank, non-numeric budget filter (`min` is
checked first, as in the code). -/
def filter_leads_query (query : List Lead) (f : LeadFilters) :
    Except HTTPException (List Lead) :=
  let query := apply_q_filter query f.q
  let query := apply_status_filter query f.status_filter
  let query := apply_source_filter query f.source
  if budget_filter_error f.min_budget then
    .error ⟨400, "Invalid filter input for min_budget"⟩
  else if budget_filter_error f.max_budget then
    .error ⟨400, "Invalid filter input for max_budget"⟩
  else
    let query := apply_min_filter query (to_int f.min_budget)
    let query := apply_max_filter query (to_int f.max_budget)
    .ok query

/-- The payload of `list_leads` (schemas.LeadPagination). -/
structure LeadPage where
  items : List LeadOut
  total : Nat
  page : Nat
  size : Nat
deriving Repr

/-- `created_at` descending order for `ORDER BY created_at DESC`. -/
def byCreatedDesc (a b : Lead) : Bool := b.created_at < a.created_at

/-- `list_leads` (leads.py:119): scope, filter, count, order, paginate;
a filter error propagates to the caller. -/
def list_leads (db : DB) (user : User) (f : LeadFilters)
    (page page_size : Nat) : Except HTTPException LeadPage :=
  match filter_leads_query (scoped_query db user) f with
  | .error e => .error e
  | .ok query =>
    .ok ⟨(((sortBy byCreatedDesc query).drop ((page - 1) * page_size)).take
        page_size).map (add_owner_name db),
      query.length, page, page_size⟩

/-- `get_lead` (leads.py:213): first scoped row with the id, else 404. -/
def get_lead (db : DB) (user : User) (lead_id : Nat) :
    Except HTTPException LeadOut :=
  match (scoped_query db user).find? (fun l => l.id == lead_id) with
  | none => .error ⟨404, "Lead not found"⟩
  | some lead => .ok (add_owner_name db lead)

/-- `delete_lead` (leads.py:249): soft delete — resolve via the scoped
query, then flip `is_active` to false and commit; the row is never
removed. -/
def delete_lead (db : DB) (user : User) (lead_id : Nat) :
    Except HTTPException DB :=
  match (scoped_query db user).find? (fun l => l.id == lead_id) with
  | none => .error ⟨404, "Lead not found"⟩
  | some _ =>
    .ok { db with
      leads := db.leads.map (fun l =>
        if l.id == lead_id then { l with is_active := false } else l) }

/-! ## Activity Store Accessor (`backend/app/routers/activities.py`) -/

/-- `_get_active_lead` (activities.py:12): fetch by primary key; 404 when
the row is missing or archived; 403 when it exists and is active but the
non-admin caller is not the owner. -/
def get_active_lead (db : DB) (lead_id : Nat) (user : User) :
    Except HTTPException Lead :=
  match db.leads.find? (fun l => l.id == lead_id) with
  | none => .error ⟨404, "Lead not found or is archived"⟩
  | some lead =>
    if !lead.is_active then .error ⟨404, "Lead not found or is archived"⟩
    else if !user.is_admin && lead.user_id != user.id then
      .error ⟨403, "Not permitted"⟩
    else .ok lead

/-- `ORDER BY activity_date DESC, created_at DESC`. -/
def byActivityDateCreatedDesc (a b : Activity) : Bool :=
  b.activity_date < a.activity_date ||
    (a.activity_date == b.activity_date && b.created_at < a.created_at)

/-- `list_activities` (activities.py:22): resolve lead visibility, then the
lead's activities ordered by date. -/
def list_activities (db : DB) (lead_id : Nat) (user : User) :
    Except HTTPException (List Activity) := do
  let _ ← get_active_lead db lead_id user
  pure (sortBy byActivityDateCreatedDesc
    (db.activities.filter (fun a => a.lead_id == lead_id)))

/-- `schemas.ActivityCreate` as the route handler reads it. -/
structure ActivityCreate where
  activity_type : String
  title : Option String
  notes : Option String
  duration : Option Int
  activity_date : Option Int
deriving Repr

/-- `add_activity` (activities.py:31): resolve lead visibility, enforce the
call-duration rule (422), default `activity_date` to `now`, insert with
`user_id = caller`.  `new_id` is the store-assigned primary key. -/
def add_activity (db : DB) (lead_id : Nat) (payload : ActivityCreate)
    (user : User) (now : Int) (new_id : Nat) :
    Except HTTPException (DB × Activity) := do
  let _ ← get_active_lead db lead_id user
  if payload.activity_type == "call" &&
      (match payload.duration with
       | none => true
       | some d => decide (d ≤ 0)) then
    throw ⟨422, "duration must be a positive integer for call activities"⟩
  let act : Activity :=
    { id := new_id
      lead_id := lead_id
      user_id := some user.id
      activity_type := payload.activity_type
      title := payload.title
      notes := payload.notes
      duration := payload.duration
      activity_date := payload.activity_date.getD now
      created_at := now }
  pure ({ db with activities := db.activities ++ [act] }, act)

/-- State-passing wrapper for `add_activity`: on an error the store is the
unchanged input store (the handler raises before `db.add`). -/
def add_activity_run (db : DB) (lead_id : Nat) (payload : ActivityCreate)
    (user : User) (now : Int) (new_id : Nat) :
    DB × Except HTTPException Activity :=
  match add_activity db lead_id payload user now new_id with
  | .ok (db2, a) => (db2, .ok a)
  | .error e => (db, .error e)

/-! ## Aggregation Engine (`backend/app/routers/dashboard.py`)

`now` is computed once at the start of the call (dashboard.py:21) and every
definition below takes that same instant.  Timestamps are seconds; a
`timedelta` of 30 days is `30 * 86400`, of a week `604800`. -/

/-- `datetime.date()` as days since the epoch: floor division, matching
Python also before the epoch. -/
def dateOf (t : Int) : Int := t / 86400

/-- Postgres `date_trunc('week', t)::date`: the Monday (ISO week start) of
the containing week, as a day number.  Day 0 (1970-01-01) is a Thursday,
so the ISO weekday index (Monday = 0) of day `d` is `(d + 3) % 7`. -/
def trunc_week_day (t : Int) : Int := dateOf t - (dateOf t + 3) % 7

/-- The ownership half of the dashboard scope: every per-metric query adds
`user_id == user.id` unless the caller is an admin (the
`*( [] if is_admin else [...] )` idiom, e.g. dashboard.py:73). -/
def leadScopeCond (user : User) (l : Lead) : Bool :=
  user.is_admin || l.user_id == user.id

/-- `lead_q` (dashboard.py:29): base lead scope, active only, own rows
unless admin. -/
def dashboard_lead_q (db : DB) (user : User) : List Lead :=
  let q := db.leads.filter (fun l => l.is_active)
  if user.is_admin then q else q.filter (fun l => l.user_id == user.id)

/-- `total_leads` (dashboard.py:34). -/
def total_leads (db : DB) (user : User) : Nat :=
  (dashboard_lead_q db user).length

/-- The row of the `leads` table joined to an activity
(`JOIN leads ON activities.lead_id = leads.id`; lead ids are primary keys,
hence unique). -/
def lead_for (db : DB) (a : Activity) : Option Lead :=
  db.leads.find? (fun l => l.id == a.lead_id)

/-- `act_q` / `act_total_q` (dashboard.py:37, dashboard.py:152): activities
joined to their lead, filtered by ownership only — the join never looks at
`is_active`. -/
def act_scope (db : DB) (user : User) : List Activity :=
  let joined := db.activities.filter (fun a => (lead_for db a).isSome)
  if user.is_admin then joined
  else joined.filter (fun a =>
    match lead_for db a with
    | some l => l.user_id == user.id
    | none => false)

/-- `total_activities` (dashboard.py:40). -/
def total_activities (db : DB) (user : User) : Nat :=
  (act_scope db user).length

/-- `won_30d` (dashboard.py:113): active, in-scope, `status = won`,
`updated_at ≥ now − 30d`. -/
def won_30d (db : DB) (user : User) (now : Int) : Nat :=
  db.leads.countP (fun l =>
    l.is_active && l.status == "won" &&
    decide (now - 30 * 86400 ≤ l.updated_at) && leadScopeCond user l)

/-- `lost_30d` (dashboard.py:124). -/
def lost_30d (db : DB) (user : User) (now : Int) : Nat :=
  db.leads.countP (fun l =>
    l.is_active && l.status == "lost" &&
    decide (now - 30 * 86400 ≤ l.updated_at) && leadScopeCond user l)

/-- `win_rate_30d` (dashboard.py:135): `(won_30d / denom) if denom else
0.0`, with Python's true division modelled in `ℚ`. -/
def win_rate_30d (db : DB) (user : User) (now : Int) : ℚ :=
  let denom := won_30d db user now + lost_30d db user now
  if denom = 0 then 0
  else (won_30d db user now : ℚ) / (denom : ℚ)

/-- The 30-day activity window `activity_date ≥ now − 30d`. -/
def in30d (now : Int) (a : Activity) : Bool :=
  decide (now - 30 * 86400 ≤ a.activity_date)

/-- `act_count_30d` (dashboard.py:173). -/
def act_count_30d (db : DB) (user : User) (now : Int) : Nat :=
  ((act_scope db user).filter (in30d now)).length

/-- `activities_by_type_30d` (dashboard.py:164): the group-by dictionary,
as its lookup function. -/
def activities_by_type_30d (db : DB) (user : User) (now : Int)
    (t : String) : Nat :=
  ((act_scope db user).filter (in30d now)).countP
    (fun a => a.activity_type == t)

/-- `avg_activities_per_lead_30d` (dashboard.py:174):
`(act_count_30d / total_leads) if total_leads else 0.0`. -/
def avg_activities_per_lead_30d (db : DB) (user : User) (now : Int) : ℚ :=
  if total_leads db user = 0 then 0
  else (act_count_30d db user now : ℚ) / (total_leads db user : ℚ)

/-- One element of the `recent_activities` payload (dashboard.py:235);
`at_time` is serialized under the JSON key "at". -/
structure RecentActivity where
  id : Nat
  lead_id : Nat
  type : String
  title : Option String
  at_time : Int
deriving Repr, DecidableEq

/-- `ORDER BY activity_date DESC` (dashboard.py:158). -/
def byActivityDateDesc (a b : Activity) : Bool :=
  b.activity_date < a.activity_date

/-- `recent_activities` (dashboard.py:157): ten most recent in-scope
activities, reduced to the payload shape. -/
def recent_activities (db : DB) (user : User) : List RecentActivity :=
  ((sortBy byActivityDateDesc (act_scope db user)).take 10).map
    (fun a => ⟨a.id, a.lead_id, a.activity_type, a.title, a.activity_date⟩)

/-- One element of `leads_trend_8w` (dashboard.py:202); `week_start` is a
day number, serialized as the ISO date string (day numbers and ISO date
strings are in bijection). -/
structure TrendEntry where
  week_start : Int
  count : Nat
deriving Repr, DecidableEq

/-- `leads_trend_8w` (dashboard.py:176-202): group active in-scope leads
created in the last 8 weeks by `date_trunc('week', created_at)`, then emit
one entry per `i < 8` with label `(start_8w + i weeks).date()` and the
group count under that key (0 when the dictionary has no such key — a
`countP` of 0). -/
def leads_trend_8w (db : DB) (user : User) (now : Int) : List TrendEntry :=
  let start_8w := now - 7 * 604800
  let rows := db.leads.filter (fun l =>
    l.is_active && decide (start_8w ≤ l.created_at) && leadScopeCond user l)
  (List.range 8).map (fun (i : Nat) =>
    let w_key := dateOf (start_8w + (i : Int) * 604800)
    ⟨w_key, rows.countP (fun l => trunc_week_day l.created_at == w_key)⟩)

/-! ## Startup Coordinator (`backend/app/main.py`, `_bootstrap_admin_once`)

Interleaving model of N worker processes running `_bootstrap_admin_once`
against one shared store.  The store's advisory lock
(`pg_try_advisory_lock` / `pg_advisory_unlock`, main.py:67 and main.py:92)
is the `lock` field: `pg_try_advisory_lock` is atomic and does not block,
returning false exactly when another session holds the key.  Each process
is a program counter plus an observed outcome; the steps below are the
atomic store operations the code performs between two shared-store
accesses.  The flag-disabled and missing-env early returns (main.py:55-63)
leave the store untouched and are omitted: the claim is about N enabled
invocations. -/

/-- A row of the `users` table as the bootstrap logic sees it (the other
columns play no part in the claim). -/
structure BootAccount where
  email : String
  is_admin : Bool
deriving Repr, DecidableEq

/-- Program counter of one worker inside `_bootstrap_admin_once`:
about to try the lock; holding it and about to run the existence query
(main.py:74); about to insert-and-commit (main.py:86); about to release
(main.py:92); finished. -/
inductive BootPC where
  | start
  | check
  | create
  | unlock
  | done
deriving Repr, DecidableEq

/-- What one invocation observed: it created the admin; it found the row
already present; or `pg_try_advisory_lock` returned false. -/
inductive BootResult where
  | created
  | alreadyExists
  | lockDenied
deriving Repr, DecidableEq

/-- The shared store plus the local state of the `n` workers. -/
structure BootState (n : Nat) where
  lock : Option (Fin n)
  accounts : List BootAccount
  pc : Fin n → BootPC
  res : Fin n → Option BootResult

/-- The existence query's predicate: `User.email == admin_email`
(main.py:74). -/
def emailMatch (email : String) (a : BootAccount) : Bool := a.email == email

/-- Number of rows matching the bootstrap email. -/
def matchCount (email : String) (accts : List BootAccount) : Nat :=
  accts.countP (emailMatch email)

/-- Fleet startup against a store that does not yet hold the bootstrap
account: lock free, users table empty, every worker at the top. -/
def initState (n : Nat) : BootState n :=
  ⟨none, [], fun _ => .start, fun _ => none⟩

/-- One atomic step of one worker. -/
inductive BootStep (email : String) {n : Nat} :
    BootState n → BootState n → Prop where
  | lock_granted (s : BootState n) (i : Fin n)
      (hpc : s.pc i = .start) (hlock : s.lock = none) :
      BootStep email s
        { s with lock := some i, pc := Function.update s.pc i .check }
  | lock_denied (s : BootState n) (i j : Fin n)
      (hpc : s.pc i = .start) (hlock : s.lock = some j) :
      BootStep email s
        { s with pc := Function.update s.pc i .done,
                 res := Function.update s.res i (some .lockDenied) }
  | check_found (s : BootState n) (i : Fin n)
      (hpc : s.pc i = .check)
      (hex : s.accounts.any (emailMatch email) = true) :
      BootStep email s
        { s with pc := Function.update s.pc i .unlock,
                 res := Function.update s.res i (some .alreadyExists) }
  | check_missing (s : BootState n) (i : Fin n)
      (hpc : s.pc i = .check)
      (hex : s.accounts.any (emailMatch email) = false) :
      BootStep email s
        { s with pc := Function.update s.pc i .create }
  | create_commit (s : BootState n) (i : Fin n)
      (hpc : s.pc i = .create) :
      BootStep email s
        { s with accounts := s.accounts ++ [⟨email, true⟩],
                 pc := Function.update s.pc i .unlock,
                 res := Function.update s.res i (some .created) }
  | unlock_release (s : BootState n) (i : Fin n)
      (hpc : s.pc i = .unlock) :
      BootStep email s
        { s with lock := none, pc := Function.update s.pc i .done }

/-- Reachability by interleaved steps. -/
def BootReach (email : String) {n : Nat} (s t : BootState n) : Prop :=
  Relation.ReflTransGen (BootStep email) s t

/-- A worker currently owns the advisory lock (it is between a successful
`pg_try_advisory_lock` and the `pg_advisory_unlock`). -/
def inCS (p : BootPC) : Prop := p = .check ∨ p = .create ∨ p = .unlock

/-- Inductive invariant of the bootstrap protocol, preserved by every
`BootStep` from `initState`. -/
structure BootInv (email : String) {n : Nat} (s : BootState n) : Prop where
  cs_lock : ∀ i, inCS (s.pc i) → s.lock = some i
  lock_cs : ∀ i, s.lock = some i → inCS (s.pc i)
  res_pending : ∀ i,
    s.pc i = .start ∨ s.pc i = .check ∨ s.pc i = .create → s.res i = none
  res_unlock : ∀ i, s.pc i = .unlock →
    s.res i = some .created ∨ s.res i = some .alreadyExists
  res_done : ∀ i, s.pc i = .done → (s.res i).isSome = true
  fresh_create : ∀ i, s.pc i = .create → matchCount email s.accounts = 0
  none_created : (∀ i, s.res i ≠ some .created) →
    matchCount email s.accounts = 0
  one_created : ∀ i, s.res i = some .created →
    matchCount email s.accounts = 1
  created_unique : ∀ i j,
    s.res i = some .created → s.res j = some .created → i = j
  exists_witness : ∀ i, s.res i = some .alreadyExists →
    ∃ j, s.res j = some .created
  admin_all : ∀ a ∈ s.accounts, a.email = email → a.is_admin = true
  progress : (∃ i, s.pc i ≠ .start) →
    (∃ i, s.res i = some .created) ∨
    (∃ i, s.pc i = .check ∨ s.pc i = .create)

/-! ## Concrete stores and inputs used as test vectors -/

/-- A regular (non-admin) account. -/
def alice : User := ⟨1, "alice@crm.local", some "Alice", some "Smith", false⟩

/-- A second regular (non-admin) account. -/
def bob : User := ⟨2, "bob@crm.local", some "Bob", some "Stone", false⟩

/-- An active lead owned by `alice`. -/
def lead1 : Lead :=
  ⟨1, "Lia", "Jones", some "lia@example.com", "new", none, none, none,
   true, 1, 1000, 1000⟩

/-- An activity logged against `lead1`. -/
def act1 : Activity :=
  ⟨1, 1, some 1, "note", some "intro", none, none, 900, 900⟩

/-- A store with two members, one active lead of `alice`, one activity. -/
def exDb : DB := ⟨[alice, bob], [lead1], [act1]⟩

/-- `exDb` after `alice` soft-deletes `lead1`: the row persists, inactive;
its activity persists. -/
def exDbDel : DB := ⟨[alice, bob], [{ lead1 with is_active := false }], [act1]⟩

/-- An empty store. -/
def emptyDb : DB := ⟨[], [], []⟩

/-- Filters carrying only a `min_budget` string. -/
def onlyMinBudget (s : String) : LeadFilters := ⟨none, none, none, some s, none⟩

/-- Filters carrying only a `max_budget` string. -/
def onlyMaxBudget (s : String) : LeadFilters := ⟨none, none, none, none, some s⟩

/-- A call-activity payload with the given duration. -/
def callPayload (d : Option Int) : ActivityCreate := ⟨"call", none, none, d, none⟩

/-- `db` with every lead's `is_active` flag rewritten by `g` (the leads are
otherwise untouched, and activities/users are untouched). -/
def setActiveFlags (db : DB) (g : Lead → Bool) : DB :=
  { db with leads := db.leads.map (fun l => { l with is_active := g l }) }

/-- The bootstrap email used in the concrete two-worker trace. -/
def bootEmail : String := "admin@crm.local"

/-- Two-worker trace, step 1: worker 0 wins the advisory lock. -/
def bs1 : BootState 2 :=
  { initState 2 with
    lock := some 0
    pc := Function.update (initState 2).pc 0 .check }

/-- Step 2: worker 1 tries the lock while worker 0 holds it and is denied. -/
def bs2 : BootState 2 :=
  { bs1 with
    pc := Function.update bs1.pc 1 .done
    res := Function.update bs1.res 1 (some .lockDenied) }

/-- Step 3: worker 0 queries for the admin row and finds none. -/
def bs3 : BootState 2 :=
  { bs2 with pc := Function.update bs2.pc 0 .create }

/-- Step 4: worker 0 inserts the admin account and commits. -/
def bs4 : BootState 2 :=
  { bs3 with
    accounts := bs3.accounts ++ [⟨bootEmail, true⟩]
    pc := Function.update bs3.pc 0 .unlock
    res := Function.update bs3.res 0 (some .created) }

/-- Step 5: worker 0 releases the lock; both workers are finished. -/
def bs5 : BootState 2 :=
  { bs4 with lock := none, pc := Function.update bs4.pc 0 .done }

/-! ## General lemmas about the embedding -/

theorem mem_insort {α : Type} {before : α → α → Bool} {x a : α} :
    ∀ {l : List α}, x ∈ insort before a l → x = a ∨ x ∈ l := by
  intro l
  induction l with
  | nil => intro h; simp [insort] at h; exact Or.inl h
  | cons b bs ih =>
    intro h
    by_cases hb : before a b
    · simp only [insort, hb, if_true, List.mem_cons] at h
      rcases h with h | h | h
      · exact Or.inl h
      · exact Or.inr (by simp [h])
      · exact Or.inr (List.mem_cons_of_mem b h)
    · simp only [insort, hb, if_false] at h
      rcases List.mem_cons.mp h with h | h
      · exact Or.inr (by simp [h])
      · rcases ih h with h2 | h2
        · exact Or.inl h2
        · exact Or.inr (List.mem_cons_of_mem b h2)

theorem mem_sortBy {α : Type} {before : α → α → Bool} {x : α} :
    ∀ {l : List α}, x ∈ sortBy before l → x ∈ l := by
  intro l
  induction l with
  | nil => intro h; simp [sortBy] at h
  | cons a as ih =>
    intro h
    rcases mem_insort (l := sortBy before as) h with h2 | h2
    · simp [h2]
    · exact List.mem_cons_of_mem a (ih h2)

/-- A row produced by the scoped query is a table row, is active, and — for
a non-admin caller — is owned by the caller. -/
theorem mem_scoped_query {db : DB} {user : User} {l : Lead}
    (h : l ∈ scoped_query db user) :
    l ∈ db.leads ∧ l.is_active = true ∧
      (user.is_admin = false → l.user_id = user.id) := by
  unfold scoped_query at h
  by_cases ha : user.is_admin
  · simp only [ha, if_true, List.mem_filter] at h
    exact ⟨h.1, h.2, fun hf => by rw [ha] at hf; cases hf⟩
  · have ha2 : user.is_admin = false := Bool.not_eq_true _ ▸ by simpa using ha
    simp only [ha2, Bool.false_eq_true, if_false, List.mem_filter] at h
    exact ⟨h.1.1, h.1.2, fun _ => by simpa using h.2⟩

/-! ## Claim C2 -/

/-- Claim C2: for a non-admin caller and a lead id none of whose rows
belong to the caller, `get_lead` answers 404 `NotFound` — whatever the
rows' `is_active` flags are. -/
theorem get_lead_not_owner_not_found (db : DB) (user : User) (lead_id : Nat)
    (hadmin : user.is_admin = false)
    (howner : ∀ l ∈ db.leads, l.id = lead_id → l.user_id ≠ user.id) :
    get_lead db user lead_id = .error ⟨404, "Lead not found"⟩ := by
  have hnone : (scoped_query db user).find? (fun l => l.id == lead_id) = none := by
    apply List.find?_eq_none.mpr
    intro l hl hbeq
    obtain ⟨hmem, _, hown⟩ := mem_scoped_query hl
    exact howner l hmem (by simpa using hbeq) (hown hadmin)
  unfold get_lead
  rw [hnone]

/-- Witness for C2: `bob` cannot read `alice`'s lead. -/
theorem get_lead_not_owner_not_found_witness :
    get_lead exDb bob 1 = .error ⟨404, "Lead not found"⟩ :=
  get_lead_not_owner_not_found exDb bob 1 rfl (by decide)

/-! ## Claim C6 -/

/-- Claim C6: a non-blank, non-numeric budget filter is rejected with 400
`InvalidFilter`; a blank budget filter succeeds and applies no bound — the
result is the unfiltered result; the same holds for both `min_budget` and
`max_budget`. -/
theorem budget_filter_validation (db : DB) (user : User)
    (page page_size : Nat) :
    list_leads db user (onlyMinBudget "abc") page page_size
        = .error ⟨400, "Invalid filter input for min_budget"⟩ ∧
    list_leads db user (onlyMinBudget "") page page_size
        = list_leads db user noFilters page page_size ∧
    (∃ out, list_leads db user (onlyMinBudget "") page page_size = .ok out) ∧
    list_leads db user (onlyMaxBudget "abc") page page_size
        = .error ⟨400, "Invalid filter input for max_budget"⟩ ∧
    list_leads db user (onlyMaxBudget "") page page_size
        = list_leads db user noFilters page page_size :=
  ⟨rfl, rfl, ⟨_, rfl⟩, rfl, rfl⟩

/-! ## Claim C9 -/

/-- Claim C9: soft delete of an already deactivated lead answers 404
`NotFound` (the scoping rule is re-evaluated on every call, so a
deactivated lead is indistinguishable from a missing one). -/
theorem soft_delete_second_not_found (db : DB) (user : User) (lead_id : Nat)
    (hinactive : ∀ l ∈ db.leads, l.id = lead_id → l.is_active = false) :
    delete_lead db user lead_id = .error ⟨404, "Lead not found"⟩ := by
  have hnone : (scoped_query db user).find? (fun l => l.id == lead_id) = none := by
    apply List.find?_eq_none.mpr
    intro l hl hbeq
    obtain ⟨hmem, hact, _⟩ := mem_scoped_query hl
    have := hinactive l hmem (by simpa using hbeq)
    rw [hact] at this
    cases this
  unfold delete_lead
  rw [hnone]

/-- Witness for C9: deleting the already-deleted lead of `exDbDel`
answers 404. -/
theorem soft_delete_second_not_found_witness :
    delete_lead exDbDel alice 1 = .error ⟨404, "Lead not found"⟩ :=
  soft_delete_second_not_found exDbDel alice 1 (by decide)

/-! ## Claim C7 -/

/-- Claim C7: for a caller who can see an active lead, creating a call
activity with `duration = 0` or `duration = null` fails with the 422
validation error and the store is unchanged, while `duration = 15`
succeeds. -/
theorem call_duration_validation (db : DB) (lead_id : Nat) (user : User)
    (now : Int) (new_id : Nat) (lead : Lead)
    (hvis : get_active_lead db lead_id user = .ok lead) :
    add_activity_run db lead_id (callPayload (some 0)) user now new_id
      = (db, .error ⟨422,
          "duration must be a positive integer for call activities"⟩) ∧
    add_activity_run db lead_id (callPayload none) user now new_id
      = (db, .error ⟨422,
          "duration must be a positive integer for call activities"⟩) ∧
    (∃ db2 act,
      add_activity db lead_id (callPayload (some 15)) user now new_id
        = .ok (db2, act)) := by
  have h0 : add_activity db lead_id (callPayload (some 0)) user now new_id
      = .error ⟨422, "duration must be a positive integer for call activities"⟩ := by
    unfold add_activity
    rw [hvis]
    rfl
  have hn : add_activity db lead_id (callPayload none) user now new_id
      = .error ⟨422, "duration must be a positive integer for call activities"⟩ := by
    unfold add_activity
    rw [hvis]
    rfl
  refine ⟨?_, ?_, ?_⟩
  · unfold add_activity_run
    rw [h0]
  · unfold add_activity_run
    rw [hn]
  · have h15 : add_activity db lead_id (callPayload (some 15)) user now new_id
        = .ok ({ db with activities := db.activities ++
              [{ id := new_id, lead_id := lead_id, user_id := some user.id,
                 activity_type := "call", title := none, notes := none,
                 duration := some 15, activity_date := now,
                 created_at := now }] },
            { id := new_id, lead_id := lead_id, user_id := some user.id,
              activity_type := "call", title := none, notes := none,
              duration := some 15, activity_date := now,
              created_at := now }) := by
      unfold add_activity
      rw [hvis]
      rfl
    exact ⟨_, _, h15⟩

/-- Witness for C7: `alice` on her own active lead. -/
theorem call_duration_validation_witness :
    add_activity_run exDb 1 (callPayload (some 0)) alice 2000 9
      = (exDb, .error ⟨422,
          "duration must be a positive integer for call activities"⟩) ∧
    add_activity_run exDb 1 (callPayload none) alice 2000 9
      = (exDb, .error ⟨422,
          "duration must be a positive integer for call activities"⟩) ∧
    (∃ db2 act,
      add_activity exDb 1 (callPayload (some 15)) alice 2000 9
        = .ok (db2, act)) :=
  call_duration_validation exDb 1 alice 2000 9 lead1 rfl

/-! ## Claim C5 -/

/-- Claim C5: `win_rate_30d` is `won / (won + lost)` and `0.0` when
`won + lost = 0`; `avg_activities_per_lead_30d` is the 30-day activity
count over `total_leads` and `0.0` when `total_leads = 0`; in the zero
cases no division is performed. -/
theorem dashboard_ratios_no_div_zero (db : DB) (user : User) (now : Int) :
    (won_30d db user now + lost_30d db user now = 0 →
      win_rate_30d db user now = 0) ∧
    (won_30d db user now + lost_30d db user now ≠ 0 →
      win_rate_30d db user now
        = (won_30d db user now : ℚ)
            / ((won_30d db user now + lost_30d db user now : Nat) : ℚ)) ∧
    (total_leads db user = 0 → avg_activities_per_lead_30d db user now = 0) ∧
    (total_leads db user ≠ 0 →
      avg_activities_per_lead_30d db user now
        = (act_count_30d db user now : ℚ) / (total_leads db user : ℚ)) := by
  refine ⟨?_, ?_, ?_, ?_⟩ <;> intro h <;>
    simp [win_rate_30d, avg_activities_per_lead_30d, h]

/-- Witness for C5: on the empty store both denominators are zero and both
ratios are `0.0`. -/
theorem dashboard_ratios_no_div_zero_witness :
    win_rate_30d emptyDb alice 0 = 0 ∧
    avg_activities_per_lead_30d emptyDb alice 0 = 0 :=
  ⟨(dashboard_ratios_no_div_zero emptyDb alice 0).1 (by decide),
   (dashboard_ratios_no_div_zero emptyDb alice 0).2.2.1 (by decide)⟩

/-! ## Claim C4 -/

/-- Claim C4: for every caller, store and instant, `leads_trend_8w` has
exactly 8 entries; their `week_start` labels are the dates of
`now − 7 weeks`, stepping by exactly 7 days, hence strictly increasing;
and a week no in-scope lead falls into still appears with `count = 0`. -/
theorem leads_trend_8w_shape (db : DB) (user : User) (now : Int) :
    (leads_trend_8w db user now).length = 8 ∧
    ((leads_trend_8w db user now).map (fun e => e.week_start))
      = (List.range 8).map
          (fun (i : Nat) => dateOf (now - 7 * 604800) + 7 * (i : Int)) ∧
    List.Pairwise (fun a b => a < b)
      ((leads_trend_8w db user now).map (fun e => e.week_start)) ∧
    (∀ e ∈ leads_trend_8w db user now,
      (∀ l ∈ db.leads, l.is_active = true →
        now - 7 * 604800 ≤ l.created_at → leadScopeCond user l = true →
        trunc_week_day l.created_at ≠ e.week_start) →
      e.count = 0) := by
  have hkey : ∀ i : Nat, dateOf (now - 7 * 604800 + (i : Int) * 604800)
      = dateOf (now - 7 * 604800) + 7 * (i : Int) := by
    intro i
    unfold dateOf
    have h6 : (i : Int) * 604800 = (7 * (i : Int)) * 86400 := by ring
    rw [h6, Int.add_mul_ediv_right _ _ (by norm_num)]
  have hmap : (leads_trend_8w db user now).map (fun e => e.week_start)
      = (List.range 8).map
          (fun (i : Nat) => dateOf (now - 7 * 604800) + 7 * (i : Int)) := by
    unfold leads_trend_8w
    rw [List.map_map]
    apply List.map_congr_left
    intro i _
    exact hkey i
  refine ⟨by simp [leads_trend_8w], hmap, ?_, ?_⟩
  · rw [hmap]
    exact List.Pairwise.map _ (fun a b hab => by omega)
      (List.pairwise_lt_range 8)
  · intro e he hnone
    unfold leads_trend_8w at he
    rw [List.mem_map] at he
    obtain ⟨i, hi, rfl⟩ := he
    apply List.countP_eq_zero.mpr
    intro l hl hbeq
    rw [List.mem_filter] at hl
    obtain ⟨hmem, hcond⟩ := hl
    simp only [Bool.and_eq_true, decide_eq_true_eq] at hcond
    obtain ⟨⟨hact, hwin⟩, hscope⟩ := hcond
    exact hnone l hmem hact hwin hscope (by simpa using hbeq)

/-- Witness for C4: on the empty store the trend still has 8 entries, all
with count 0. -/
theorem leads_trend_8w_shape_witness :
    (leads_trend_8w emptyDb alice 0).length = 8 ∧
    ∀ e ∈ leads_trend_8w emptyDb alice 0, e.count = 0 := by
  have h := leads_trend_8w_shape emptyDb alice 0
  refine ⟨h.1, ?_⟩
  intro e he
  refine h.2.2.2 e he ?_
  intro l hl
  simp [emptyDb] at hl

/-! ## Claim C10 -/

/-- The activity-to-lead join resolves to the same row (up to the
`is_active` flag) after the flags are rewritten, because the join matches
on `id` only. -/
theorem lead_for_setActiveFlags (db : DB) (g : Lead → Bool) (a : Activity) :
    lead_for (setActiveFlags db g) a
      = (lead_for db a).map (fun l => { l with is_active := g l }) := by
  unfold lead_for setActiveFlags
  rw [List.find?_map]
  rfl

/-- The scoped activity set is untouched by rewriting `is_active` flags of
leads: the join filters on ownership only. -/
theorem act_scope_setActiveFlags (db : DB) (user : User) (g : Lead → Bool) :
    act_scope (setActiveFlags db g) user = act_scope db user := by
  have hjoin : ∀ a : Activity,
      (lead_for (setActiveFlags db g) a).isSome = (lead_for db a).isSome := by
    intro a
    rw [lead_for_setActiveFlags]
    cases lead_for db a <;> rfl
  have hown : ∀ a : Activity,
      (match lead_for (setActiveFlags db g) a with
       | some l => l.user_id == user.id
       | none => false)
      = (match lead_for db a with
         | some l => l.user_id == user.id
         | none => false) := by
    intro a
    rw [lead_for_setActiveFlags]
    cases lead_for db a <;> rfl
  unfold act_scope
  have hacts : (setActiveFlags db g).activities = db.activities := rfl
  rw [hacts]
  rw [List.filter_congr (fun a _ => hjoin a)]
  by_cases ha : user.is_admin
  · simp only [ha, if_true]
  · simp only [ha, Bool.false_eq_true, if_false]
    exact List.filter_congr (fun a _ => hown a)

/-- Claim C10: every activity-based dashboard metric — `total_activities`,
`recent_activities`, `activities_by_type_30d` and the numerator
`act_count_30d` of `avg_activities_per_lead_30d` — is unchanged by any
rewriting of the leads' `is_active` flags, so activities of soft-deleted
leads are counted; concretely, on a store whose only lead is soft-deleted
the caller's `total_activities` is still 1. -/
theorem activity_metrics_ignore_is_active (db : DB) (user : User)
    (now : Int) (g : Lead → Bool) :
    total_activities (setActiveFlags db g) user = total_activities db user ∧
    recent_activities (setActiveFlags db g) user
      = recent_activities db user ∧
    (∀ t, activities_by_type_30d (setActiveFlags db g) user now t
        = activities_by_type_30d db user now t) ∧
    act_count_30d (setActiveFlags db g) user now
      = act_count_30d db user now ∧
    total_activities exDbDel alice = 1 ∧
    (∀ l ∈ exDbDel.leads, l.is_active = false) := by
  refine ⟨?_, ?_, ?_, ?_, by decide, by decide⟩
  · unfold total_activities
    rw [act_scope_setActiveFlags]
  · unfold recent_activities
    rw [act_scope_setActiveFlags]
  · intro t
    unfold activities_by_type_30d
    rw [act_scope_setActiveFlags]
  · unfold act_count_30d
    rw [act_scope_setActiveFlags]

/-! ## Claim C1 -/

/-- Counterexample to C1 as stated: `bob` (non-admin) probes `alice`'s
existing, active lead 1; both `list_activities` and `add_activity` answer
a distinct 403 — not the 404 the claim requires — revealing that the lead
exists. -/
theorem activity_visibility_leaks_existence :
    bob.is_admin = false ∧
    (∃ l ∈ exDb.leads, l.id = 1 ∧ l.is_active = true ∧ l.user_id ≠ bob.id) ∧
    list_activities exDb 1 bob = .error ⟨403, "Not permitted"⟩ ∧
    add_activity exDb 1 (callPayload (some 15)) bob 0 9
      = .error ⟨403, "Not permitted"⟩ ∧
    errStatus (list_activities exDb 1 bob) ≠ some 404 ∧
    errStatus (add_activity exDb 1 (callPayload (some 15)) bob 0 9)
      ≠ some 404 := by
  refine ⟨rfl, ⟨lead1, by decide⟩, rfl, rfl, by decide, by decide⟩

/-- Amended C1: for a non-admin caller, a missing or soft-deleted lead id
gets 404 from both activity operations; an existing *active* lead owned by
someone else gets 403 `Forbidden` — the two cases are distinguishable, so
existence of an active lead is leaked. -/
theorem activity_access_status_amended (db : DB) (lead_id : Nat)
    (user : User) (payload : ActivityCreate) (now : Int) (new_id : Nat)
    (hadmin : user.is_admin = false) :
    ((db.leads.find? (fun l => l.id == lead_id) = none ∨
      (∃ l, db.leads.find? (fun l2 => l2.id == lead_id) = some l ∧
        l.is_active = false)) →
      errStatus (list_activities db lead_id user) = some 404 ∧
      errStatus (add_activity db lead_id payload user now new_id)
        = some 404) ∧
    (∀ l, db.leads.find? (fun l2 => l2.id == lead_id) = some l →
      l.is_active = true → l.user_id ≠ user.id →
      errStatus (list_activities db lead_id user) = some 403 ∧
      errStatus (add_activity db lead_id payload user now new_id)
        = some 403) := by
  constructor
  · rintro (hnone | ⟨l, hsome, hinact⟩)
    · have hg : get_active_lead db lead_id user
          = .error ⟨404, "Lead not found or is archived"⟩ := by
        unfold get_active_lead
        rw [hnone]
      constructor
      · unfold list_activities
        rw [hg]
        rfl
      · unfold add_activity
        rw [hg]
        rfl
    · have hg : get_active_lead db lead_id user
          = .error ⟨404, "Lead not found or is archived"⟩ := by
        unfold get_active_lead
        rw [hsome]
        simp [hinact]
      constructor
      · unfold list_activities
        rw [hg]
        rfl
      · unfold add_activity
        rw [hg]
        rfl
  · intro l hsome hact hown
    have hg : get_active_lead db lead_id user
        = .error ⟨403, "Not permitted"⟩ := by
      unfold get_active_lead
      rw [hsome]
      simp [hact, hadmin, bne_iff_ne, hown]
    constructor
    · unfold list_activities
      rw [hg]
      rfl
    · unfold add_activity
      rw [hg]
      rfl

/-- Witness for the amended C1: `bob` against `alice`'s active lead. -/
theorem activity_access_status_amended_witness :
    errStatus (list_activities exDb 1 bob) = some 403 ∧
    errStatus (add_activity exDb 1 (callPayload (some 15)) bob 0 9)
      = some 403 :=
  (activity_access_status_amended exDb 1 bob (callPayload (some 15)) 0 9
      rfl).2 lead1 rfl rfl (by decide)

/-! ## Claim C8 -/

/-- `_add_owner_name` does not alter the lead row itself. -/
theorem add_owner_name_lead (db : DB) (l : Lead) :
    (add_owner_name db l).lead = l := by
  unfold add_owner_name
  cases db.users.find? (fun u => u.id == l.user_id) <;> rfl

theorem mem_apply_q_filter {l : Lead} {query : List Lead} {q : Option String}
    (h : l ∈ apply_q_filter query q) : l ∈ query := by
  unfold apply_q_filter at h
  split at h
  · exact h
  · split at h
    · exact h
    · exact List.mem_of_mem_filter h

theorem mem_apply_status_filter {l : Lead} {query : List Lead}
    {st : Option String} (h : l ∈ apply_status_filter query st) :
    l ∈ query := by
  unfold apply_status_filter at h
  split at h
  · exact h
  · split at h
    · exact h
    · exact List.mem_of_mem_filter h

theorem mem_apply_source_filter {l : Lead} {query : List Lead}
    {so : Option String} (h : l ∈ apply_source_filter query so) :
    l ∈ query := by
  unfold apply_source_filter at h
  split at h
  · exact h
  · split at h
    · exact h
    · exact List.mem_of_mem_filter h

theorem mem_apply_min_filter {l : Lead} {query : List Lead}
    {mb : Option Nat} (h : l ∈ apply_min_filter query mb) : l ∈ query := by
  unfold apply_min_filter at h
  split at h
  · exact h
  · exact List.mem_of_mem_filter h

theorem mem_apply_max_filter {l : Lead} {query : List Lead}
    {xb : Option Nat} (h : l ∈ apply_max_filter query xb) : l ∈ query := by
  unfold apply_max_filter at h
  split at h
  · exact h
  · exact List.mem_of_mem_filter h

/-- Every row surviving `_filter_leads_query` came from the input query:
the filters only narrow. -/
theorem mem_filter_leads_query {query out : List Lead} {f : LeadFilters}
    (h : filter_leads_query query f = .ok out) :
    ∀ l ∈ out, l ∈ query := by
  intro l hl
  unfold filter_leads_query at h
  split at h
  · exact Except.noConfusion h
  · split at h
    · exact Except.noConfusion h
    · injection h with h2
      subst h2
      exact mem_apply_q_filter (mem_apply_status_filter
        (mem_apply_source_filter
          (mem_apply_min_filter (mem_apply_max_filter hl))))

/-- Claim C8: once `delete_lead` succeeds for `lead_id`, the row persists
in the store with `is_active = false`, and no `list_leads` call — any
filters, any page — ever returns an item with that id again. -/
theorem soft_delete_hides_and_persists (db db2 : DB) (user : User)
    (lead_id : Nat) (h : delete_lead db user lead_id = .ok db2) :
    (∃ l ∈ db2.leads, l.id = lead_id ∧ l.is_active = false) ∧
    (∀ (f : LeadFilters) (page page_size : Nat) (out : LeadPage),
      list_leads db2 user f page page_size = .ok out →
      ∀ o ∈ out.items, o.lead.id ≠ lead_id) := by
  unfold delete_lead at h
  cases hf : (scoped_query db user).find? (fun l => l.id == lead_id) with
  | none =>
    rw [hf] at h
    exact Except.noConfusion h
  | some l0 =>
    rw [hf] at h
    injection h with h2
    subst h2
    constructor
    · have hl0 : l0 ∈ db.leads :=
        (mem_scoped_query (List.mem_of_find?_eq_some hf)).1
      have hid : (l0.id == lead_id) = true :=
        List.find?_some (p := fun l : Lead => l.id == lead_id) hf
      refine ⟨{ l0 with is_active := false }, ?_, by simpa using hid, rfl⟩
      have hm := List.mem_map_of_mem
        (fun l => if l.id == lead_id then { l with is_active := false } else l)
        hl0
      simpa [hid] using hm
    · intro f page page_size out hlist o ho hoid
      unfold list_leads at hlist
      cases hfq : filter_leads_query
          (scoped_query
            { db with leads := db.leads.map (fun l =>
                if l.id == lead_id then { l with is_active := false } else l) }
            user) f with
      | error e =>
        rw [hfq] at hlist
        exact Except.noConfusion hlist
      | ok q1 =>
        rw [hfq] at hlist
        injection hlist with h3
        subst h3
        rw [List.mem_map] at ho
        obtain ⟨l, hlmem, rfl⟩ := ho
        rw [add_owner_name_lead] at hoid
        have hq1 : l ∈ q1 :=
          mem_sortBy (List.mem_of_mem_drop (List.mem_of_mem_take hlmem))
        have hsc := mem_filter_leads_query hfq l hq1
        obtain ⟨hmem, hact, _⟩ := mem_scoped_query hsc
        rw [List.mem_map] at hmem
        obtain ⟨l1, hl1, heq⟩ := hmem
        by_cases hc : (l1.id == lead_id) = true
        · rw [if_pos hc] at heq
          rw [← heq] at hact
          simp at hact
        · rw [if_neg hc] at heq
          subst heq
          simp at hc
          exact hc hoid

/-- Witness for C8: `alice` deletes her lead 1; the row persists inactive
and no listing for her ever shows id 1 again. -/
theorem soft_delete_hides_and_persists_witness :
    (∃ l ∈ exDbDel.leads, l.id = 1 ∧ l.is_active = false) ∧
    (∀ (f : LeadFilters) (page page_size : Nat) (out : LeadPage),
      list_leads exDbDel alice f page page_size = .ok out →
      ∀ o ∈ out.items, o.lead.id ≠ 1) :=
  soft_delete_hides_and_persists exDb exDbDel alice 1 rfl

/-! ## Claim C3 -/

theorem matchCount_append_one (email : String) (accts : List BootAccount) :
    matchCount email (accts ++ [⟨email, true⟩])
      = matchCount email accts + 1 := by
  unfold matchCount
  rw [List.countP_append]
  simp [emailMatch]

theorem matchCount_pos_of_any {email : String} {accts : List BootAccount}
    (h : accts.any (emailMatch email) = true) :
    matchCount email accts ≠ 0 := by
  unfold matchCount
  intro h0
  rw [List.countP_eq_zero] at h0
  obtain ⟨a, ha, hp⟩ := List.any_eq_true.mp h
  exact h0 a ha hp

theorem matchCount_zero_of_any_false {email : String}
    {accts : List BootAccount} (h : accts.any (emailMatch email) = false) :
    matchCount email accts = 0 := by
  unfold matchCount
  rw [List.countP_eq_zero]
  intro a ha hp
  have h2 : accts.any (emailMatch email) = true :=
    List.any_eq_true.mpr ⟨a, ha, hp⟩
  rw [h] at h2
  cases h2

theorem bootInv_init (email : String) (n : Nat) :
    BootInv email (initState n) where
  cs_lock := by
    intro i h
    rcases h with h | h | h <;> exact BootPC.noConfusion h
  lock_cs := by intro i h; exact Option.noConfusion h
  res_pending := by intro i _; rfl
  res_unlock := by intro i h; exact BootPC.noConfusion h
  res_done := by intro i h; exact BootPC.noConfusion h
  fresh_create := by intro i h; exact BootPC.noConfusion h
  none_created := by intro _; rfl
  one_created := by intro i h; exact Option.noConfusion h
  created_unique := by intro i j hi _; exact Option.noConfusion hi
  exists_witness := by intro i h; exact Option.noConfusion h
  admin_all := by intro a ha; cases ha
  progress := by
    rintro ⟨i, hi⟩
    exact absurd rfl hi

theorem bootInv_step {email : String} {n : Nat} {u v : BootState n}
    (hstep : BootStep email u v) (hinv : BootInv email u) :
    BootInv email v := by
  obtain ⟨c1, c2, c3, c4, c5, c6, c7, c8, c9, c10, c11, c12⟩ := hinv
  cases hstep with
  | lock_granted i hpc hlock =>
    refine ⟨?_, ?_, ?_, ?_, ?_, ?_, c7, c8, c9, c10, c11, ?_⟩
    · intro k hk
      by_cases hki : k = i
      · subst hki; rfl
      · have hk2 : inCS (u.pc k) := by
          simpa [Function.update_apply, hki] using hk
        have h3 := c1 k hk2
        rw [hlock] at h3
        exact Option.noConfusion h3
    · intro k hk
      have hik : i = k := Option.some.inj hk
      subst hik
      exact Or.inl (by simp [Function.update_same])
    · intro k hk
      by_cases hki : k = i
      · subst hki; exact c3 k (Or.inl hpc)
      · exact c3 k (by simpa [Function.update_apply, hki] using hk)
    · intro k hk
      by_cases hki : k = i
      · subst hki; simp only [Function.update_same] at hk; exact BootPC.noConfusion hk
      · exact c4 k (by simpa [Function.update_apply, hki] using hk)
    · intro k hk
      by_cases hki : k = i
      · subst hki; simp only [Function.update_same] at hk; exact BootPC.noConfusion hk
      · exact c5 k (by simpa [Function.update_apply, hki] using hk)
    · intro k hk
      by_cases hki : k = i
      · subst hki; simp only [Function.update_same] at hk; exact BootPC.noConfusion hk
      · exact c6 k (by simpa [Function.update_apply, hki] using hk)
    · intro _
      exact Or.inr ⟨i, Or.inl (by simp [Function.update_same])⟩
  | lock_denied i j hpc hlock =>
    have hresi : u.res i = none := c3 i (Or.inl hpc)
    refine ⟨?_, ?_, ?_, ?_, ?_, ?_, ?_, ?_, ?_, ?_, c11, ?_⟩
    · intro k hk
      have hki : k ≠ i := by
        intro e; subst e
        simp only [Function.update_same] at hk
        rcases hk with h | h | h <;> exact BootPC.noConfusion h
      exact c1 k (by simpa [Function.update_apply, hki] using hk)
    · intro k hk
      have hcs := c2 k hk
      have hki : k ≠ i := by
        intro e; subst e
        rcases hcs with h | h | h <;>
          (rw [hpc] at h; exact BootPC.noConfusion h)
      simpa [Function.update_apply, hki] using hcs
    · intro k hk
      have hki : k ≠ i := by
        intro e; subst e
        simp only [Function.update_same] at hk
        rcases hk with h | h | h <;> exact BootPC.noConfusion h
      have hk2 := by simpa [Function.update_apply, hki] using hk
      simp only [Function.update_apply, if_neg hki]
      exact c3 k hk2
    · intro k hk
      have hki : k ≠ i := by
        intro e; subst e
        simp only [Function.update_same] at hk
        exact BootPC.noConfusion hk
      have hk2 : u.pc k = .unlock := by
        simpa [Function.update_apply, hki] using hk
      simp only [Function.update_apply, if_neg hki]
      exact c4 k hk2
    · intro k hk
      by_cases hki : k = i
      · subst hki; simp [Function.update_same]
      · have hk2 : u.pc k = .done := by
          simpa [Function.update_apply, hki] using hk
        simp only [Function.update_apply, if_neg hki]
        exact c5 k hk2
    · intro k hk
      have hki : k ≠ i := by
        intro e; subst e
        simp only [Function.update_same] at hk
        exact BootPC.noConfusion hk
      exact c6 k (by simpa [Function.update_apply, hki] using hk)
    · intro hall
      apply c7
      intro k
      by_cases hki : k = i
      · subst hki
        intro hcon
        rw [hresi] at hcon
        exact Option.noConfusion hcon
      · have := hall k
        simpa [Function.update_apply, hki] using this
    · intro k hk
      have hki : k ≠ i := by
        intro e; subst e
        simp only [Function.update_same] at hk
        simp at hk
      exact c8 k (by simpa [Function.update_apply, hki] using hk)
    · intro k m hk hm
      have hki : k ≠ i := by
        intro e; subst e
        simp only [Function.update_same] at hk
        simp at hk
      have hmi : m ≠ i := by
        intro e; subst e
        simp only [Function.update_same] at hm
        simp at hm
      exact c9 k m (by simpa [Function.update_apply, hki] using hk)
        (by simpa [Function.update_apply, hmi] using hm)
    · intro k hk
      have hki : k ≠ i := by
        intro e; subst e
        simp only [Function.update_same] at hk
        simp at hk
      obtain ⟨m, hm⟩ :=
        c10 k (by simpa [Function.update_apply, hki] using hk)
      have hmi : m ≠ i := by
        intro e; subst e
        rw [hresi] at hm
        exact Option.noConfusion hm
      exact ⟨m, by simpa [Function.update_apply, hmi] using hm⟩
    · intro _
      have hcsj := c2 j hlock
      have hji : j ≠ i := by
        intro e; subst e
        rcases hcsj with h | h | h <;>
          (rw [hpc] at h; exact BootPC.noConfusion h)
      rcases hcsj with h | h | h
      · exact Or.inr ⟨j, Or.inl
          (by simpa [Function.update_apply, hji] using h)⟩
      · exact Or.inr ⟨j, Or.inr
          (by simpa [Function.update_apply, hji] using h)⟩
      · rcases c4 j h with hcr | hex
        · have hjr : j ≠ i := hji
          exact Or.inl ⟨j,
            by simpa [Function.update_apply, hjr] using hcr⟩
        · obtain ⟨m, hm⟩ := c10 j hex
          have hmi : m ≠ i := by
            intro e; subst e
            rw [hresi] at hm
            exact Option.noConfusion hm
          exact Or.inl ⟨m,
            by simpa [Function.update_apply, hmi] using hm⟩
  | check_found i hpc hex =>
    have hlocki : u.lock = some i := c1 i (Or.inl hpc)
    have hresi : u.res i = none := c3 i (Or.inr (Or.inl hpc))
    have hmc := matchCount_pos_of_any hex
    have hcr : ∃ k, u.res k = some .created := by
      by_contra hno
      push_neg at hno
      exact hmc (c7 hno)
    obtain ⟨k0, hk0⟩ := hcr
    have hk0i : k0 ≠ i := by
      intro e
      rw [e, hresi] at hk0
      exact Option.noConfusion hk0
    refine ⟨?_, ?_, ?_, ?_, ?_, ?_, ?_, ?_, ?_, ?_, c11, ?_⟩
    · intro k hk
      by_cases hki : k = i
      · subst hki; exact hlocki
      · exact c1 k (by simpa [Function.update_apply, hki] using hk)
    · intro k hk
      by_cases hki : k = i
      · subst hki
        exact Or.inr (Or.inr (by simp [Function.update_same]))
      · have hk2 := c2 k hk
        simpa [Function.update_apply, hki] using hk2
    · intro k hk
      have hki : k ≠ i := by
        intro e; subst e
        simp only [Function.update_same] at hk
        rcases hk with h | h | h <;> exact BootPC.noConfusion h
      have hk2 := by simpa [Function.update_apply, hki] using hk
      simp only [Function.update_apply, if_neg hki]
      exact c3 k hk2
    · intro k hk
      by_cases hki : k = i
      · subst hki
        exact Or.inr (by simp [Function.update_same])
      · have hk2 : u.pc k = .unlock := by
          simpa [Function.update_apply, hki] using hk
        simp only [Function.update_apply, if_neg hki]
        exact c4 k hk2
    · intro k hk
      by_cases hki : k = i
      · subst hki; simp only [Function.update_same] at hk; exact BootPC.noConfusion hk
      · have hk2 : u.pc k = .done := by
          simpa [Function.update_apply, hki] using hk
        simp only [Function.update_apply, if_neg hki]
        exact c5 k hk2
    · intro k hk
      have hki : k ≠ i := by
        intro e; subst e
        simp only [Function.update_same] at hk
        exact BootPC.noConfusion hk
      exact c6 k (by simpa [Function.update_apply, hki] using hk)
    · intro hall
      exfalso
      exact hall k0 (by simpa [Function.update_apply, hk0i] using hk0)
    · intro k hk
      have hki : k ≠ i := by
        intro e; subst e
        simp only [Function.update_same] at hk
        simp at hk
      exact c8 k (by simpa [Function.update_apply, hki] using hk)
    · intro k m hk hm
      have hki : k ≠ i := by
        intro e; subst e
        simp only [Function.update_same] at hk
        simp at hk
      have hmi : m ≠ i := by
        intro e; subst e
        simp only [Function.update_same] at hm
        simp at hm
      exact c9 k m (by simpa [Function.update_apply, hki] using hk)
        (by simpa [Function.update_apply, hmi] using hm)
    · intro k _
      exact ⟨k0, by simpa [Function.update_apply, hk0i] using hk0⟩
    · intro _
      exact Or.inl ⟨k0, by simpa [Function.update_apply, hk0i] using hk0⟩
  | check_missing i hpc hex =>
    have hlocki : u.lock = some i := c1 i (Or.inl hpc)
    have hmz := matchCount_zero_of_any_false hex
    refine ⟨?_, ?_, ?_, ?_, ?_, ?_, c7, c8, c9, c10, c11, ?_⟩
    · intro k hk
      by_cases hki : k = i
      · subst hki; exact hlocki
      · exact c1 k (by simpa [Function.update_apply, hki] using hk)
    · intro k hk
      by_cases hki : k = i
      · subst hki
        exact Or.inr (Or.inl (by simp [Function.update_same]))
      · have hk2 := c2 k hk
        simpa [Function.update_apply, hki] using hk2
    · intro k hk
      by_cases hki : k = i
      · subst hki; exact c3 k (Or.inr (Or.inl hpc))
      · exact c3 k (by simpa [Function.update_apply, hki] using hk)
    · intro k hk
      have hki : k ≠ i := by
        intro e; subst e
        simp only [Function.update_same] at hk
        exact BootPC.noConfusion hk
      exact c4 k (by simpa [Function.update_apply, hki] using hk)
    · intro k hk
      have hki : k ≠ i := by
        intro e; subst e
        simp only [Function.update_same] at hk
        exact BootPC.noConfusion hk
      exact c5 k (by simpa [Function.update_apply, hki] using hk)
    · intro k hk
      by_cases hki : k = i
      · subst hki; exact hmz
      · exact c6 k (by simpa [Function.update_apply, hki] using hk)
    · intro _
      exact Or.inr ⟨i, Or.inr (by simp [Function.update_same])⟩
  | create_commit i hpc =>
    have hlocki : u.lock = some i := c1 i (Or.inr (Or.inl hpc))
    have hresi : u.res i = none := c3 i (Or.inr (Or.inr hpc))
    have hmz : matchCount email u.accounts = 0 := c6 i hpc
    have hnocreated : ∀ k, u.res k ≠ some .created := by
      intro k hc
      have h1 := c8 k hc
      rw [hmz] at h1
      exact Nat.noConfusion h1
    refine ⟨?_, ?_, ?_, ?_, ?_, ?_, ?_, ?_, ?_, ?_, ?_, ?_⟩
    · intro k hk
      by_cases hki : k = i
      · subst hki; exact hlocki
      · exact c1 k (by simpa [Function.update_apply, hki] using hk)
    · intro k hk
      by_cases hki : k = i
      · subst hki
        exact Or.inr (Or.inr (by simp [Function.update_same]))
      · have hk2 := c2 k hk
        simpa [Function.update_apply, hki] using hk2
    · intro k hk
      have hki : k ≠ i := by
        intro e; subst e
        simp only [Function.update_same] at hk
        rcases hk with h | h | h <;> exact BootPC.noConfusion h
      have hk2 := by simpa [Function.update_apply, hki] using hk
      simp only [Function.update_apply, if_neg hki]
      exact c3 k hk2
    · intro k hk
      by_cases hki : k = i
      · subst hki
        exact Or.inl (by simp [Function.update_same])
      · have hk2 : u.pc k = .unlock := by
          simpa [Function.update_apply, hki] using hk
        simp only [Function.update_apply, if_neg hki]
        exact c4 k hk2
    · intro k hk
      by_cases hki : k = i
      · subst hki; simp only [Function.update_same] at hk; exact BootPC.noConfusion hk
      · have hk2 : u.pc k = .done := by
          simpa [Function.update_apply, hki] using hk
        simp only [Function.update_apply, if_neg hki]
        exact c5 k hk2
    · intro k hk
      exfalso
      have hki : k ≠ i := by
        intro e; subst e
        simp only [Function.update_same] at hk
        exact BootPC.noConfusion hk
      have hk2 : u.pc k = .create := by
        simpa [Function.update_apply, hki] using hk
      have hlk := c1 k (Or.inr (Or.inl hk2))
      rw [hlocki] at hlk
      exact hki (Option.some.inj hlk).symm
    · intro hall
      exfalso
      exact hall i (by simp [Function.update_same])
    · intro k _
      rw [matchCount_append_one, hmz]
    · intro k m hk hm
      have hk2 : k = i := by
        by_contra hki
        exact hnocreated k (by simpa [Function.update_apply, hki] using hk)
      have hm2 : m = i := by
        by_contra hmi
        exact hnocreated m (by simpa [Function.update_apply, hmi] using hm)
      rw [hk2, hm2]
    · intro k _
      exact ⟨i, by simp [Function.update_same]⟩
    · intro a ha he
      rcases List.mem_append.mp ha with h | h
      · exact c11 a h he
      · simp only [List.mem_singleton] at h
        subst h
        rfl
    · intro _
      exact Or.inl ⟨i, by simp [Function.update_same]⟩
  | unlock_release i hpc =>
    have hlocki : u.lock = some i := c1 i (Or.inr (Or.inr hpc))
    have hres4 := c4 i hpc
    have hcr : ∃ k, u.res k = some .created := by
      rcases hres4 with h | h
      · exact ⟨i, h⟩
      · exact c10 i h
    refine ⟨?_, ?_, ?_, ?_, ?_, ?_, c7, c8, c9, c10, c11, ?_⟩
    · intro k hk
      exfalso
      have hki : k ≠ i := by
        intro e; subst e
        simp only [Function.update_same] at hk
        rcases hk with h | h | h <;> exact BootPC.noConfusion h
      have hk2 : inCS (u.pc k) := by
        simpa [Function.update_apply, hki] using hk
      have h3 := c1 k hk2
      rw [hlocki] at h3
      exact hki (Option.some.inj h3).symm
    · intro k hk
      exact Option.noConfusion hk
    · intro k hk
      have hki : k ≠ i := by
        intro e; subst e
        simp only [Function.update_same] at hk
        rcases hk with h | h | h <;> exact BootPC.noConfusion h
      exact c3 k (by simpa [Function.update_apply, hki] using hk)
    · intro k hk
      have hki : k ≠ i := by
        intro e; subst e
        simp only [Function.update_same] at hk
        exact BootPC.noConfusion hk
      exact c4 k (by simpa [Function.update_apply, hki] using hk)
    · intro k hk
      by_cases hki : k = i
      · subst hki
        rcases hres4 with h | h <;> simp [h]
      · exact c5 k (by simpa [Function.update_apply, hki] using hk)
    · intro k hk
      have hki : k ≠ i := by
        intro e; subst e
        simp only [Function.update_same] at hk
        exact BootPC.noConfusion hk
      exact c6 k (by simpa [Function.update_apply, hki] using hk)
    · intro _
      exact Or.inl hcr

theorem bootInv_reach {email : String} {n : Nat} {t : BootState n}
    (h : BootReach email (initState n) t) : BootInv email t := by
  unfold BootReach at h
  induction h with
  | refl => exact bootInv_init email n
  | tail _ hbc ih => exact bootInv_step hbc ih

/-- Claim C3: from fleet startup against a shared store with no bootstrap
row, any fully-finished interleaving of N workers leaves exactly one
account with the bootstrap email and the admin role, and some single
worker created it while every other worker observed `lockDenied` or
`alreadyExists`. -/
theorem bootstrap_exactly_once (email : String) (n : Nat) (hn : 0 < n)
    (t : BootState n) (hreach : BootReach email (initState n) t)
    (hdone : ∀ i, t.pc i = .done) :
    t.accounts.countP (fun a => a.email == email && a.is_admin) = 1 ∧
    ∃ i : Fin n, t.res i = some .created ∧
      ∀ j : Fin n, j ≠ i →
        t.res j = some .alreadyExists ∨ t.res j = some .lockDenied := by
  have inv := bootInv_reach hreach
  have hne : ∃ i : Fin n, t.pc i ≠ .start :=
    ⟨⟨0, hn⟩, by rw [hdone]; exact fun h => BootPC.noConfusion h⟩
  have hcr : ∃ i, t.res i = some .created := by
    rcases inv.progress hne with h | ⟨k, hk | hk⟩
    · exact h
    · rw [hdone k] at hk; exact BootPC.noConfusion hk
    · rw [hdone k] at hk; exact BootPC.noConfusion hk
  obtain ⟨i, hi⟩ := hcr
  have hmc : matchCount email t.accounts = 1 := inv.one_created i hi
  constructor
  · have hcongr : t.accounts.countP (fun a => a.email == email && a.is_admin)
        = t.accounts.countP (emailMatch email) := by
      apply List.countP_congr
      intro a ha
      by_cases he : a.email = email
      · have hadm := inv.admin_all a ha he
        simp [emailMatch, he, hadm]
      · simp [emailMatch, he]
    rw [hcongr]
    exact hmc
  · refine ⟨i, hi, ?_⟩
    intro j hj
    have hd := inv.res_done j (hdone j)
    cases hr : t.res j with
    | none => rw [hr] at hd; exact Bool.noConfusion hd
    | some r =>
      cases r with
      | created => exact absurd (inv.created_unique j i hr hi) hj
      | alreadyExists => exact Or.inl rfl
      | lockDenied => exact Or.inr rfl

/-- The concrete two-worker execution: worker 0 locks, worker 1 is denied,
worker 0 creates, commits and unlocks. -/
theorem bootTrace : BootReach bootEmail (initState 2) bs5 := by
  unfold BootReach
  refine Relation.ReflTransGen.head
    (BootStep.lock_granted (initState 2) 0 rfl rfl) ?_
  refine Relation.ReflTransGen.head
    (BootStep.lock_denied bs1 1 0 (by decide) rfl) ?_
  refine Relation.ReflTransGen.head
    (BootStep.check_missing bs2 0 (by decide) rfl) ?_
  refine Relation.ReflTransGen.head
    (BootStep.create_commit bs3 0 (by decide)) ?_
  exact Relation.ReflTransGen.single
    (BootStep.unlock_release bs4 0 (by decide))

/-- Witness for C3: the two-worker trace ends with exactly one admin row
and results `created` / `lockDenied`. -/
theorem bootstrap_exactly_once_witness :
    bs5.accounts.countP (fun a => a.email == bootEmail && a.is_admin) = 1 ∧
    ∃ i : Fin 2, bs5.res i = some .created ∧
      ∀ j : Fin 2, j ≠ i →
        bs5.res j = some .alreadyExists ∨ bs5.res j = some .lockDenied :=
  bootstrap_exactly_once bootEmail 2 (by decide) bs5 bootTrace (by decide)

end CRM
